import Mathlib

/-!
Verification of the scheduling / visit-lifecycle / archival subsystem of the
clinic-management-system repository.

The Python code keeps every collection as a dict keyed by string IDs; we embed
dicts as insertion-ordered association lists (`List (String × V)`) with
first-match lookup, in-place replacement on insert, and removal on delete —
the observable semantics of a Python dict under `in`, `[k] = v` and `del`.

Timestamps: the code calls `datetime.datetime.fromisoformat` (and in the
archiver also `strptime` as a fallback) and then compares / adds timedeltas.
We model a datetime as an `Int` (minutes on a linear time axis) and the
fallible parse as an explicit parameter `parse : String → Option Int`,
mirroring the code's policy decision (skip, default, or fail) at each call
site.  `float(...)` parsing of lab values is likewise an explicit
`parseFloat : String → Option ℚ` parameter.
-/

namespace Clinic

/-- First-match lookup in an association list (Python `d.get(k)` / `k in d`). -/
def lookupA {V : Type} : List (String × V) → String → Option V
  | [], _ => none
  | (k2, v) :: rest, k => if k2 = k then some v else lookupA rest k

/-- Python `d[k] = v`: replace the binding in place if the key is present,
otherwise append a new binding at the end (dict insertion order). -/
def insertA {V : Type} : List (String × V) → String → V → List (String × V)
  | [], k, v => [(k, v)]
  | (k2, v2) :: rest, k, v =>
    if k2 = k then (k, v) :: rest else (k2, v2) :: insertA rest k v

/-- Python `del d[k]`: drop the binding for `k`. -/
def eraseA {V : Type} : List (String × V) → String → List (String × V)
  | [], _ => []
  | (k2, v2) :: rest, k =>
    if k2 = k then eraseA rest k else (k2, v2) :: eraseA rest k

/-- A dict never holds two bindings for one key. -/
def keysNodup {V : Type} (m : List (String × V)) : Prop :=
  (m.map Prod.fst).Nodup

instance {V : Type} (m : List (String × V)) : Decidable (keysNodup m) :=
  inferInstanceAs (Decidable ((m.map Prod.fst).Nodup))

theorem lookupA_insertA_self {V : Type} (m : List (String × V)) (k : String) (v : V) :
    lookupA (insertA m k v) k = some v := by
  induction m with
  | nil => simp [insertA, lookupA]
  | cons hd tl ih =>
    by_cases h : hd.1 = k
    · simp [insertA, lookupA, h]
    · simp [insertA, lookupA, h, ih]

theorem lookupA_insertA_ne {V : Type} (m : List (String × V)) (k k' : String) (v : V)
    (h : k' ≠ k) : lookupA (insertA m k v) k' = lookupA m k' := by
  have hne : ¬ k = k' := fun hh => h hh.symm
  induction m with
  | nil => simp [insertA, lookupA, hne]
  | cons hd tl ih =>
    obtain ⟨k2, v2⟩ := hd
    by_cases hh : k2 = k
    · subst hh
      simp [insertA, lookupA, hne]
    · by_cases hk : k2 = k'
      · subst hk
        simp [insertA, lookupA, hh]
      · simp [insertA, lookupA, hh, hk, ih]

theorem lookupA_eraseA_self {V : Type} (m : List (String × V)) (k : String) :
    lookupA (eraseA m k) k = none := by
  induction m with
  | nil => simp [eraseA, lookupA]
  | cons hd tl ih =>
    obtain ⟨k2, v2⟩ := hd
    by_cases h : k2 = k
    · simpa [eraseA, h] using ih
    · simpa [eraseA, lookupA, h] using ih

theorem lookupA_eraseA_ne {V : Type} (m : List (String × V)) (k k' : String)
    (h : k' ≠ k) : lookupA (eraseA m k) k' = lookupA m k' := by
  induction m with
  | nil => simp [eraseA, lookupA]
  | cons hd tl ih =>
    obtain ⟨k2, v2⟩ := hd
    by_cases hh : k2 = k
    · subst hh
      have h2 : ¬ k2 = k' := fun hc => h hc.symm
      simpa [eraseA, lookupA, h2] using ih
    · by_cases hk : k2 = k'
      · subst hk
        simp [eraseA, lookupA, hh]
      · simpa [eraseA, lookupA, hh, hk] using ih

theorem lookupA_eq_none_iff {V : Type} (m : List (String × V)) (k : String) :
    lookupA m k = none ↔ k ∉ m.map Prod.fst := by
  induction m with
  | nil => simp [lookupA]
  | cons hd tl ih =>
    obtain ⟨k2, v2⟩ := hd
    by_cases h : k2 = k
    · simp [lookupA, h]
    · have h2 : ¬ k = k2 := fun hh => h hh.symm
      simp [lookupA, h, ih, h2]

theorem keys_insertA {V : Type} (m : List (String × V)) (k : String) (v : V) :
    (insertA m k v).map Prod.fst =
      if k ∈ m.map Prod.fst then m.map Prod.fst else m.map Prod.fst ++ [k] := by
  induction m with
  | nil => simp [insertA]
  | cons hd tl ih =>
    obtain ⟨k2, v2⟩ := hd
    by_cases h : k2 = k
    · subst h
      simp [insertA]
    · have h3 : ¬ k = k2 := fun hh => h hh.symm
      by_cases h2 : k ∈ tl.map Prod.fst
      · simp [insertA, h, h2, ih, h3]
      · simp [insertA, h, h2, ih, h3]

theorem keys_eraseA {V : Type} (m : List (String × V)) (k : String) :
    (eraseA m k).map Prod.fst = (m.map Prod.fst).filter (fun a => a ≠ k) := by
  induction m with
  | nil => simp [eraseA]
  | cons hd tl ih =>
    obtain ⟨k2, v2⟩ := hd
    by_cases h : k2 = k
    · simp [eraseA, h, ih, List.filter]
    · simp [eraseA, h, ih, List.filter]

theorem keysNodup_insertA {V : Type} (m : List (String × V)) (k : String) (v : V)
    (h : keysNodup m) : keysNodup (insertA m k v) := by
  unfold keysNodup at *
  rw [keys_insertA]
  by_cases h2 : k ∈ m.map Prod.fst
  · rwa [if_pos h2]
  · rw [if_neg h2]
    simp [List.nodup_append, h, h2]

theorem keysNodup_eraseA {V : Type} (m : List (String × V)) (k : String)
    (h : keysNodup m) : keysNodup (eraseA m k) := by
  unfold keysNodup at *
  rw [keys_eraseA]
  exact h.filter _

/-! ## Appointment scheduling (models/appointment_manager.py)

An appointment record is a loosely-typed dict; we keep the fields the manager
reads.  A missing or `None` string-valued entry and an empty string are both
falsy under `appointment_data.get(...)`, so string fields use `""` for
"missing"; `duration` and `status` keep the present/absent distinction
(`appt_data.get("duration", 30)` / `"status" not in appointment_data`). -/

structure Appt where
  id : Option String := none
  patient_id : String := ""
  datetime : String := ""
  doctor : String := ""
  duration : Option Int := none
  status : Option String := none
  reason : String := ""
  notes : String := ""
  created_on : Option String := none
  last_updated : Option String := none
deriving Repr, DecidableEq

/-- The store of one manager together with the `(ok, message)` pair the
Python methods return. -/
structure OpResult (σ : Type) where
  state : σ
  ok : Bool
  msg : String
deriving Repr, DecidableEq

abbrev ApptStore := List (String × Appt)

/-- The half-open interval overlap test from `_check_appointment_available`:
`appointment_datetime < existing_end and appointment_end > existing_datetime`. -/
def overlaps (aStart aEnd bStart bEnd : Int) : Bool :=
  aStart < bEnd && aEnd > bStart

/-- `if exclude_id and appt_id == exclude_id` — the excluded id must be
truthy (non-empty) to be skipped. -/
def isExcluded (excludeId : Option String) (k : String) : Bool :=
  match excludeId with
  | some e => !(e = "") && e = k
  | none => false

/-- The loop body of `_check_appointment_available`: `true` when the existing
appointment `pr` raises no conflict against the requested interval
`[t, tEnd)` — because it is the excluded id, belongs to another doctor, its
datetime fails to parse, or the intervals do not overlap. -/
def apptEntryOk (parse : String → Option Int) (excludeId : Option String)
    (doctor : String) (t tEnd : Int) (pr : String × Appt) : Bool :=
  if isExcluded excludeId pr.1 then true
  else if pr.2.doctor ≠ doctor then true
  else
    match parse pr.2.datetime with
    | none => true
    | some u => !(overlaps t tEnd u (u + pr.2.duration.getD 30))

/-- `_check_appointment_available` (appointment_manager.py:273-320).
Returns `true` if available, `false` on a conflict; also `false` when the
requested datetime/doctor is missing or the requested datetime fails to
parse (the surrounding `except` returns `False`). -/
def checkAppointmentAvailable (parse : String → Option Int) (appts : ApptStore)
    (data : Appt) (excludeId : Option String) : Bool :=
  if data.datetime = "" || data.doctor = "" then false
  else
    match parse data.datetime with
    | none => false
    | some t =>
      appts.all (apptEntryOk parse excludeId data.doctor t (t + data.duration.getD 30))

/-- The stamping `add_appointment` performs before inserting: add
`created_on` and default `status` to `"scheduled"` when the key is absent. -/
def stampNewAppt (now : String) (data : Appt) : Appt :=
  { data with
    created_on := some now
    status := match data.status with
      | none => some "scheduled"
      | some s => some s }

/-- `add_appointment` (appointment_manager.py:46-86).  `genId` stands for the
`uuid.uuid4()` draw used when the request carries no id, `now` for
`datetime.datetime.now().isoformat()`. -/
def addAppointment (parse : String → Option Int) (now genId : String)
    (appts : ApptStore) (data : Appt) : OpResult ApptStore :=
  if (lookupA appts (data.id.getD genId)).isSome then
    ⟨appts, false, s!"Appointment ID {data.id.getD genId} already exists"⟩
  else if data.patient_id = "" then
    ⟨appts, false, "Patient ID is required"⟩
  else if data.datetime = "" then
    ⟨appts, false, "Appointment date and time is required"⟩
  else if !(checkAppointmentAvailable parse appts data none) then
    ⟨appts, false, "Appointment time conflicts with an existing appointment"⟩
  else
    ⟨insertA appts (data.id.getD genId) (stampNewAppt now data), true,
      "Appointment scheduled successfully"⟩

/-- A partial update dict for `update_appointment`: `some v` means the key is
present in `updated_data` with value `v`. -/
structure ApptUpdate where
  patient_id : Option String := none
  datetime : Option String := none
  doctor : Option String := none
  duration : Option Int := none
  status : Option String := none
  reason : Option String := none
  notes : Option String := none
deriving Repr, DecidableEq

/-- Python `appointment.copy(); check_data.update(updated_data)` and the
field-by-field `appointment[key] = value` loop. -/
def applyApptUpdate (a : Appt) (u : ApptUpdate) : Appt :=
  { a with
    patient_id := u.patient_id.getD a.patient_id
    datetime := u.datetime.getD a.datetime
    doctor := u.doctor.getD a.doctor
    duration := match u.duration with
      | some d => some d
      | none => a.duration
    status := match u.status with
      | some s => some s
      | none => a.status
    reason := u.reason.getD a.reason
    notes := u.notes.getD a.notes }

/-- `update_appointment` (appointment_manager.py:88-133).  The conflict check
only runs when the supplied datetime or doctor is present and differs from the
stored value. -/
def updateAppointment (parse : String → Option Int) (now : String)
    (appts : ApptStore) (appointment_id : String) (upd : ApptUpdate) :
    OpResult ApptStore :=
  match lookupA appts appointment_id with
  | none => ⟨appts, false, s!"Appointment ID {appointment_id} not found"⟩
  | some appointment =>
    let date_changed := upd.datetime.isSome && upd.datetime ≠ some appointment.datetime
    let doctor_changed := upd.doctor.isSome && upd.doctor ≠ some appointment.doctor
    if (date_changed || doctor_changed)
        && !(checkAppointmentAvailable parse appts (applyApptUpdate appointment upd)
              (some appointment_id)) then
      ⟨appts, false, "Updated appointment time conflicts with an existing appointment"⟩
    else
      let newAppt := { applyApptUpdate appointment upd with last_updated := some now }
      ⟨insertA appts appointment_id newAppt, true, "Appointment updated successfully"⟩

/-! ## Patients and the visit lifecycle (models/patient_manager.py) -/

/-- One `medical_history` entry: `{date, type, condition, notes, treatment}`. -/
structure MedicalEntry where
  date : String := ""
  type : String := ""
  condition : String := ""
  notes : String := ""
  treatment : String := ""
deriving Repr, DecidableEq

/-- A visit record (active or completed).  `end_time`, `diagnosis`,
`treatment` and `follow_up` are keys that `end_visit` may add, so they keep
the present/absent distinction. -/
structure Visit where
  start_time : String := ""
  end_time : Option String := none
  doctor : String := ""
  reason : String := ""
  notes : String := ""
  diagnosis : Option String := none
  treatment : Option String := none
  follow_up : Option String := none
  status : String := ""
deriving Repr, DecidableEq

/-- A patient record.  `add_patient` always initialises `medical_history`,
`visit_history` and `created_on`, so they are plain fields here. -/
structure Patient where
  name : String := ""
  date_of_birth : String := ""
  gender : String := ""
  phone : String := ""
  email : String := ""
  address : String := ""
  notes : String := ""
  medical_history : List MedicalEntry := []
  visit_history : List Visit := []
  created_on : Option String := none
  last_updated : Option String := none
deriving Repr, DecidableEq

/-- The slice of the record store `PatientManager` owns. -/
structure PMState where
  patients : List (String × Patient)
  active_visits : List (String × Visit)
deriving Repr, DecidableEq

/-- The optional `visit_data` dict handed to `start_visit`; only the keys the
method reads. -/
structure VisitInit where
  notes : Option String := none
  doctor : Option String := none
  reason : Option String := none
deriving Repr, DecidableEq

/-- The optional `visit_notes` dict handed to `end_visit`. -/
structure VisitNotes where
  notes : Option String := none
  diagnosis : Option String := none
  treatment : Option String := none
  follow_up : Option String := none
deriving Repr, DecidableEq

/-- Python truthiness of the `visit_notes` argument: a non-`None`, non-empty
dict. -/
def visitNotesTruthy : Option VisitNotes → Bool
  | none => false
  | some n => !(n.notes.isNone && n.diagnosis.isNone && n.treatment.isNone &&
      n.follow_up.isNone)

/-- The guard of the medical-history write in `end_visit`:
`visit_notes and "diagnosis" in visit_notes and visit_notes["diagnosis"]`.
(A dict containing a `diagnosis` key is non-empty, hence truthy.) -/
def diagnosisSupplied : Option VisitNotes → Bool
  | none => false
  | some n =>
    match n.diagnosis with
    | none => false
    | some d => !(d = "")

/-- The finished visit snapshot `end_visit` builds before appending it to
`visit_history`: stamp `end_time := now`, merge the optional notes fields when
`visit_notes` is truthy, set `status := "completed"`. -/
def mergeVisitNotes (now : String) (v : Visit) (vn : Option VisitNotes) : Visit :=
  let v1 : Visit := { v with end_time := some now }
  let v2 : Visit :=
    if visitNotesTruthy vn then
      match vn with
      | some n =>
        { v1 with
          notes := n.notes.getD v1.notes
          diagnosis := some (n.diagnosis.getD "")
          treatment := some (n.treatment.getD "")
          follow_up := some (n.follow_up.getD "") }
      | none => v1
    else v1
  { v2 with status := "completed" }

/-- The `medical_history` entry `end_visit` appends when a non-empty diagnosis
was supplied. -/
def diagnosisEntry (now : String) (vn : Option VisitNotes) : MedicalEntry :=
  match vn with
  | none => { date := now, type := "diagnosis" }
  | some n =>
    { date := now
      type := "diagnosis"
      condition := n.diagnosis.getD ""
      notes := n.notes.getD ""
      treatment := n.treatment.getD "" }

/-- `add_patient` (patient_manager.py:71-107).  The default id is
`str(len(self.patients) + 1)`. -/
def addPatient (now : String) (st : PMState) (pid : Option String)
    (data : Patient) : OpResult PMState :=
  if (lookupA st.patients (pid.getD (toString (st.patients.length + 1)))).isSome then
    ⟨st, false, s!"Patient ID {pid.getD (toString (st.patients.length + 1))} already exists"⟩
  else if data.name = "" then
    ⟨st, false, "Patient name is required"⟩
  else
    let stamped : Patient := { data with created_on := some now }
    ⟨{ st with
        patients := insertA st.patients (pid.getD (toString (st.patients.length + 1))) stamped },
      true, s!"Patient {data.name} added successfully"⟩

/-- A partial update dict for `update_patient`.  It may carry
`medical_history` / `visit_history` / `created_on` keys — the method skips
them in its update loop and re-asserts the saved values afterwards. -/
structure PatientUpdate where
  name : Option String := none
  date_of_birth : Option String := none
  gender : Option String := none
  phone : Option String := none
  email : Option String := none
  address : Option String := none
  notes : Option String := none
  medical_history : Option (List MedicalEntry) := none
  visit_history : Option (List Visit) := none
  created_on : Option String := none
deriving Repr, DecidableEq

/-- `update_patient` (patient_manager.py:109-146). -/
def updatePatient (now : String) (st : PMState) (patient_id : String)
    (u : PatientUpdate) : OpResult PMState :=
  match lookupA st.patients patient_id with
  | none => ⟨st, false, s!"Patient ID {patient_id} not found"⟩
  | some patient =>
    let merged : Patient :=
      { patient with
        name := u.name.getD patient.name
        date_of_birth := u.date_of_birth.getD patient.date_of_birth
        gender := u.gender.getD patient.gender
        phone := u.phone.getD patient.phone
        email := u.email.getD patient.email
        address := u.address.getD patient.address
        notes := u.notes.getD patient.notes }
    let restored : Patient :=
      { merged with
        medical_history := patient.medical_history
        visit_history := patient.visit_history
        created_on := patient.created_on
        last_updated := some now }
    ⟨{ st with patients := insertA st.patients patient_id restored }, true,
      s!"Patient {restored.name} updated successfully"⟩

/-- `delete_patient` (patient_manager.py:148-174): refused while an active
visit exists. -/
def deletePatient (st : PMState) (patient_id : String) : OpResult PMState :=
  if (lookupA st.patients patient_id).isNone then
    ⟨st, false, s!"Patient ID {patient_id} not found"⟩
  else if (lookupA st.active_visits patient_id).isSome then
    ⟨st, false, "Cannot delete patient with active visit. End the visit first."⟩
  else
    ⟨{ st with patients := eraseA st.patients patient_id }, true,
      "Patient deleted successfully"⟩

/-- `start_visit` (patient_manager.py:199-232). -/
def startVisit (now : String) (st : PMState) (patient_id : String)
    (vd : Option VisitInit) : OpResult PMState :=
  match lookupA st.patients patient_id with
  | none => ⟨st, false, s!"Patient ID {patient_id} not found"⟩
  | some p =>
    if (lookupA st.active_visits patient_id).isSome then
      ⟨st, false, "Patient already has an active visit"⟩
    else
      let vd0 := vd.getD {}
      let visit : Visit :=
        { start_time := now
          notes := vd0.notes.getD ""
          doctor := vd0.doctor.getD ""
          reason := vd0.reason.getD ""
          status := "active" }
      ⟨{ st with active_visits := insertA st.active_visits patient_id visit }, true,
        s!"Visit started for patient {p.name}"⟩

/-- `end_visit` (patient_manager.py:234-288). -/
def endVisit (now : String) (st : PMState) (patient_id : String)
    (vn : Option VisitNotes) : OpResult PMState :=
  match lookupA st.patients patient_id with
  | none => ⟨st, false, s!"Patient ID {patient_id} not found"⟩
  | some patient =>
    match lookupA st.active_visits patient_id with
    | none => ⟨st, false, "No active visit found for patient"⟩
    | some visit =>
      let finished := mergeVisitNotes now visit vn
      let patient2 :=
        { patient with visit_history := patient.visit_history ++ [finished] }
      let patient3 :=
        if diagnosisSupplied vn then
          { patient2 with
            medical_history := patient2.medical_history ++ [diagnosisEntry now vn] }
        else patient2
      ⟨{ patients := insertA st.patients patient_id patient3
         active_visits := eraseA st.active_visits patient_id }, true,
        s!"Visit ended for patient {patient.name}"⟩

/-- `update_visit_notes` (patient_manager.py:290-305). -/
def updateVisitNotes (st : PMState) (patient_id : String) (notes : String) :
    OpResult PMState :=
  match lookupA st.active_visits patient_id with
  | none => ⟨st, false, "No active visit found"⟩
  | some v =>
    let v2 : Visit := { v with notes := notes }
    ⟨{ st with active_visits := insertA st.active_visits patient_id v2 }, true,
      "Visit notes updated"⟩

/-! ## Archival engine (models/config_manager.py: archive_old_visits)

`parse` here stands for the `fromisoformat`-then-`strptime` chain; any failure
of both (and the surrounding per-visit `except`) means "keep the visit".
`cutoff` is the precomputed `datetime.datetime.now() - timedelta(days=days)`. -/

/-- The slice of the config document the archiver touches. -/
structure CMState where
  patients : List (String × Patient)
  archived_visits : List (String × List Visit)
deriving Repr, DecidableEq

/-- The per-visit branch of `archive_old_visits`: a visit is kept when its
`end_time` is missing or falsy, fails to parse, or is strictly newer than the
cutoff; otherwise it is archived. -/
def keepVisit (parse : String → Option Int) (cutoff : Int) (v : Visit) : Bool :=
  match v.end_time with
  | none => true
  | some s =>
    if s = "" then true
    else
      match parse s with
      | none => true
      | some t => cutoff < t

/-- The keep/archive partition loop of `archive_old_visits`, preserving the
order in which visits are appended to the two lists. -/
def partitionVisits (parse : String → Option Int) (cutoff : Int) :
    List Visit → List Visit × List Visit
  | [] => ([], [])
  | v :: rest =>
    let pr := partitionVisits parse cutoff rest
    if keepVisit parse cutoff v then (v :: pr.1, pr.2) else (pr.1, v :: pr.2)

/-- The per-patient body of `archive_old_visits`, threading the
`archived_visits` map and the running count through the patient loop.
Returns the rewritten patients list, the final archive map, and the count. -/
def archiveLoop (parse : String → Option Int) (cutoff : Int) :
    List (String × Patient) → List (String × List Visit) →
    List (String × Patient) × List (String × List Visit) × Nat
  | [], archived => ([], archived, 0)
  | (pid, p) :: rest, archived =>
    let pr := partitionVisits parse cutoff p.visit_history
    let p2 : Patient := { p with visit_history := pr.1 }
    let archived2 :=
      if pr.2.isEmpty then archived
      else insertA archived pid ((lookupA archived pid).getD [] ++ pr.2)
    let r := archiveLoop parse cutoff rest archived2
    ((pid, p2) :: r.1, r.2.1, r.2.2 + pr.2.length)

/-- `archive_old_visits` (config_manager.py:409-478); the Python method
returns `(True, f"Archived {count} visits")`, modelled as the new state plus
the count. -/
def archiveOldVisits (parse : String → Option Int) (cutoff : Int)
    (st : CMState) : CMState × Nat :=
  let r := archiveLoop parse cutoff st.patients st.archived_visits
  (⟨r.1, r.2.1⟩, r.2.2)

/-! ## Test-result trending (models/test_results_manager.py) -/

structure TestResult where
  test_name : String := ""
  test_date : String := ""
  value : Option String := none
  unit : String := ""
  reference_range : String := ""
  notes : String := ""
  id : String := ""
deriving Repr, DecidableEq

abbrev TRStore := List (String × List (String × TestResult))

/-- One point of the numeric trend extraction, with the parsed date and value. -/
structure TrendPoint where
  date : Int
  value : ℚ
  unit : String
  reference_range : String
  id : String
deriving Repr, DecidableEq

/-- Python compares strings by code point; `<` on two characters. -/
def charLt (a b : Char) : Bool := decide (a.val.toNat < b.val.toNat)

/-- Lexicographic `<` on the underlying character lists. -/
def strLtData : List Char → List Char → Bool
  | [], [] => false
  | [], _ :: _ => true
  | _ :: _, [] => false
  | a :: as, b :: bs =>
    if charLt a b then true else if charLt b a then false else strLtData as bs

/-- Python string `<=`, as used by `list.sort(key=lambda x: x.get(...))`. -/
def strLe (a b : String) : Bool := !(strLtData b.data a.data)

/-- Stable insertion used to model Python `list.sort(key=...)`; `le` must be
a total preorder test for the sortedness results below. -/
def insertLe {α : Type} (le : α → α → Bool) (x : α) : List α → List α
  | [] => [x]
  | y :: ys => if le x y then x :: y :: ys else y :: insertLe le x ys

/-- Comparison sort of a list (models Python `list.sort`). -/
def sortLe {α : Type} (le : α → α → Bool) : List α → List α
  | [] => []
  | x :: xs => insertLe le x (sortLe le xs)

/-- `get_patient_test_results` (test_results_manager.py:154-169): attach ids,
sort by `test_date` string descending (`reverse=True`). -/
def getPatientTestResults (store : TRStore) (patient_id : String) :
    List TestResult :=
  let raw := (lookupA store patient_id).getD []
  let withIds := raw.map fun pr => { pr.2 with id := pr.1 }
  sortLe (fun a b => strLe b.test_date a.test_date) withIds

/-- `get_test_results_by_type` (test_results_manager.py:171-176). -/
def getTestResultsByType (store : TRStore) (patient_id test_type : String) :
    List TestResult :=
  (getPatientTestResults store patient_id).filter fun r => r.test_name = test_type

/-- The per-result extraction step of `get_numerical_test_results`: requires a
present value that parses as a float and a non-empty `test_date` that parses
as a date; any failure silently skips the result. -/
def numericPoint (parseFloat : String → Option ℚ) (parseDate : String → Option Int)
    (r : TestResult) : Option TrendPoint :=
  match r.value with
  | none => none
  | some v =>
    match parseFloat v with
    | none => none
    | some x =>
      if r.test_date = "" then none
      else
        match parseDate r.test_date with
        | none => none
        | some d => some ⟨d, x, r.unit, r.reference_range, r.id⟩

/-- `get_numerical_test_results` (test_results_manager.py:209-245). -/
def getNumericalTestResults (parseFloat : String → Option ℚ)
    (parseDate : String → Option Int) (store : TRStore)
    (patient_id test_type : String) : List TrendPoint :=
  let pts := (getTestResultsByType store patient_id test_type).filterMap
    (numericPoint parseFloat parseDate)
  sortLe (fun a b => a.date ≤ b.date) pts

/-! ## Helper lemmas about the embedded operations -/

theorem mem_insertA {V : Type} (m : List (String × V)) (k : String) (v : V)
    (pr : String × V) (h : pr ∈ insertA m k v) : pr ∈ m ∨ pr = (k, v) := by
  induction m with
  | nil =>
    simp [insertA] at h
    exact Or.inr h
  | cons hd tl ih =>
    obtain ⟨k2, v2⟩ := hd
    by_cases hh : k2 = k
    · subst hh
      have h2 : pr ∈ (k2, v) :: tl := by simpa [insertA] using h
      rcases List.mem_cons.mp h2 with h3 | h3
      · exact Or.inr h3
      · exact Or.inl (List.mem_cons_of_mem _ h3)
    · have h2 : pr ∈ (k2, v2) :: insertA tl k v := by simpa [insertA, hh] using h
      rcases List.mem_cons.mp h2 with h3 | h3
      · exact Or.inl (List.mem_cons.mpr (Or.inl h3))
      · rcases ih h3 with h4 | h4
        · exact Or.inl (List.mem_cons_of_mem _ h4)
        · exact Or.inr h4

theorem apptEntryOk_none_eq_false_iff (parse : String → Option Int)
    (doctor : String) (t tEnd : Int) (pr : String × Appt) :
    apptEntryOk parse none doctor t tEnd pr = false ↔
      pr.2.doctor = doctor ∧ ∃ u, parse pr.2.datetime = some u ∧
        overlaps t tEnd u (u + pr.2.duration.getD 30) = true := by
  unfold apptEntryOk isExcluded
  by_cases hd : pr.2.doctor = doctor
  · cases hp : parse pr.2.datetime with
    | none => simp [hd, hp]
    | some u => simp [hd, hp, Bool.not_eq_true']
  · simp [hd]

theorem checkAvailable_none_eq_false_iff (parse : String → Option Int)
    (appts : ApptStore) (data : Appt) (t : Int)
    (hdt : data.datetime ≠ "") (hdoc : data.doctor ≠ "")
    (hparse : parse data.datetime = some t) :
    checkAppointmentAvailable parse appts data none = false ↔
      ∃ pr ∈ appts, pr.2.doctor = data.doctor ∧
        ∃ u, parse pr.2.datetime = some u ∧
          overlaps t (t + data.duration.getD 30) u (u + pr.2.duration.getD 30) = true := by
  unfold checkAppointmentAvailable
  rw [if_neg (by simp [hdt, hdoc]), hparse]
  simp only [Bool.eq_false_iff, Ne, List.all_eq_true, not_forall]
  constructor
  · rintro ⟨pr, hmem, hfalse⟩
    exact ⟨pr, hmem,
      (apptEntryOk_none_eq_false_iff parse data.doctor t
        (t + data.duration.getD 30) pr).mp (Bool.not_eq_true _ ▸ hfalse)⟩
  · rintro ⟨pr, hmem, hconf⟩
    refine ⟨pr, hmem, ?_⟩
    rw [(apptEntryOk_none_eq_false_iff parse data.doctor t
      (t + data.duration.getD 30) pr).mpr hconf]
    simp

theorem checkAvailable_true_elim (parse : String → Option Int)
    (appts : ApptStore) (data : Appt) (excludeId : Option String)
    (h : checkAppointmentAvailable parse appts data excludeId = true) :
    data.datetime ≠ "" ∧ data.doctor ≠ "" ∧ (parse data.datetime).isSome = true := by
  unfold checkAppointmentAvailable at h
  by_cases hc : (data.datetime = "" || data.doctor = "" : Bool) = true
  · rw [if_pos hc] at h
    exact absurd h (by simp)
  · rw [if_neg hc] at h
    simp only [Bool.or_eq_true, decide_eq_true_eq, not_or] at hc
    cases hp : parse data.datetime with
    | none =>
      rw [hp] at h
      exact absurd h (by simp)
    | some t => exact ⟨hc.1, hc.2, by simp [hp]⟩

/-- `add_appointment` either succeeds and inserts the stamped record after a
passing availability check, or fails leaving the store untouched. -/
theorem addAppointment_cases (parse : String → Option Int) (now genId : String)
    (appts : ApptStore) (data : Appt) :
    (addAppointment parse now genId appts data =
        ⟨insertA appts (data.id.getD genId) (stampNewAppt now data), true,
          "Appointment scheduled successfully"⟩ ∧
      checkAppointmentAvailable parse appts data none = true) ∨
    ((addAppointment parse now genId appts data).state = appts ∧
      (addAppointment parse now genId appts data).ok = false) := by
  unfold addAppointment
  split_ifs with h1 h2 h3 h4
  · exact Or.inr ⟨rfl, rfl⟩
  · exact Or.inr ⟨rfl, rfl⟩
  · exact Or.inr ⟨rfl, rfl⟩
  · exact Or.inr ⟨rfl, rfl⟩
  · refine Or.inl ⟨rfl, ?_⟩
    simpa using h4

/-- Fixture datetime parse for the concrete instances below: `"t0"`, `"t15"`,
`"t30"`, `"t40"` denote minutes 0, 15, 30 and 40; everything else is
unparsable. -/
def sampleParse : String → Option Int := fun s =>
  if s = "t0" then some 0
  else if s = "t15" then some 15
  else if s = "t30" then some 30
  else if s = "t40" then some 40
  else none

/-- Fixture: a stored appointment for Dr. Smith at minute 0, 30 minutes. -/
def smithA : Appt :=
  { patient_id := "P1", datetime := "t0", doctor := "Smith",
    status := some "scheduled", created_on := some "c0" }

/-- Fixture: a stored appointment for Dr. Smith at minute 40, 30 minutes. -/
def smithB : Appt :=
  { patient_id := "P2", datetime := "t40", doctor := "Smith",
    status := some "scheduled", created_on := some "c0" }

/-! ## Claim theorems -/

/-- **C1** (counterexample to the claim as stated): an add request with
non-empty patient id, parsable datetime `"t0"`, and fresh id, but an empty
doctor, is rejected with the conflict error against the *empty* store —
where no existing appointment (let alone an overlapping one for the same
doctor) exists, so the claimed "if and only if" fails. -/
theorem addAppointment_conflict_iff_fails_empty_doctor :
    ¬ (((addAppointment sampleParse "now" "A" []
            { patient_id := "P1", datetime := "t0" }).ok = false ∧
        (addAppointment sampleParse "now" "A" []
            { patient_id := "P1", datetime := "t0" }).msg =
          "Appointment time conflicts with an existing appointment") ↔
      ∃ pr ∈ ([] : ApptStore), pr.2.doctor = "" ∧
        ∃ u, sampleParse pr.2.datetime = some u ∧
          overlaps 0 (0 + 30) u (u + pr.2.duration.getD 30) = true) := by
  intro hiff
  rcases hiff.mp ⟨by decide, by decide⟩ with ⟨pr, hmem, _⟩
  exact absurd hmem (List.not_mem_nil pr)

/-- **C1** (amended: the request must also carry a non-empty doctor; an empty
doctor makes the availability check fail unconditionally, claim **C10**).
For every store and every add request with a fresh id, non-empty patient_id,
non-empty parsable datetime and non-empty doctor, `add_appointment` fails
with the conflict error iff some existing appointment of the same doctor
whose datetime parses has `[start, start+duration)` overlapping the requested
interval per `a_start < b_end AND a_end > b_start`, durations defaulting to
30 minutes; the stored status is never consulted (the iff holds for stores
holding scheduled, completed and cancelled appointments alike) and existing
appointments with unparsable datetimes are skipped as non-conflicting. -/
theorem addAppointment_conflict_iff_overlap
    (parse : String → Option Int) (now genId : String) (appts : ApptStore)
    (data : Appt) (t : Int)
    (hfresh : lookupA appts (data.id.getD genId) = none)
    (hpid : data.patient_id ≠ "")
    (hdt : data.datetime ≠ "")
    (hparse : parse data.datetime = some t)
    (hdoc : data.doctor ≠ "") :
    ((addAppointment parse now genId appts data).ok = false ∧
      (addAppointment parse now genId appts data).msg =
        "Appointment time conflicts with an existing appointment") ↔
      ∃ pr ∈ appts, pr.2.doctor = data.doctor ∧
        ∃ u, parse pr.2.datetime = some u ∧
          overlaps t (t + data.duration.getD 30) u (u + pr.2.duration.getD 30) = true := by
  rw [← checkAvailable_none_eq_false_iff parse appts data t hdt hdoc hparse]
  cases hc : checkAppointmentAvailable parse appts data none with
  | false => simp [addAppointment, hfresh, hpid, hdt, hc]
  | true => simp [addAppointment, hfresh, hpid, hdt, hc]

/-- Witness for the amended C1: Dr. Smith at minute 0 is stored; a request
for Dr. Smith at minute 15 (intervals `[0,30)` and `[15,45)` overlap) is
rejected with the conflict error. -/
theorem addAppointment_conflict_iff_overlap_witness :
    (addAppointment sampleParse "n" "B" [("A", smithA)]
        { patient_id := "P2", datetime := "t15", doctor := "Smith" }).ok = false ∧
    (addAppointment sampleParse "n" "B" [("A", smithA)]
        { patient_id := "P2", datetime := "t15", doctor := "Smith" }).msg =
      "Appointment time conflicts with an existing appointment" :=
  (addAppointment_conflict_iff_overlap sampleParse "n" "B" [("A", smithA)]
      { patient_id := "P2", datetime := "t15", doctor := "Smith" } 15
      (by decide) (by decide) (by decide) (by decide) (by decide)).mpr
    ⟨("A", smithA), by decide, by decide, 0, by decide, by decide⟩

/-- **C2** (counterexample to the claim as stated): the store holds Dr. Smith
at `[0,30)` and `[40,70)`; updating the first appointment's duration to 60
minutes changes neither its datetime nor its doctor, so `update_appointment`
skips the conflict check, reports success, and leaves the store holding two
same-doctor appointments with overlapping intervals `[0,60)` and `[40,70)` —
no `ConflictError`, and the store mutated. -/
theorem updateAppointment_duration_overlap_accepted :
    (updateAppointment sampleParse "n2" [("A", smithA), ("B", smithB)] "A"
        { duration := some 60 }).ok = true ∧
    lookupA (updateAppointment sampleParse "n2" [("A", smithA), ("B", smithB)] "A"
        { duration := some 60 }).state "A" =
      some { smithA with duration := some 60, last_updated := some "n2" } ∧
    lookupA (updateAppointment sampleParse "n2" [("A", smithA), ("B", smithB)] "A"
        { duration := some 60 }).state "B" = some smithB ∧
    smithA.doctor = smithB.doctor ∧
    sampleParse smithA.datetime = some 0 ∧
    sampleParse smithB.datetime = some 40 ∧
    overlaps 0 (0 + 60) 40 (40 + 30) = true :=
  ⟨by decide, by decide, by decide, by decide, by decide, by decide, by decide⟩

/-- **C2** (amended: `update_appointment` re-runs the conflict check only
when the supplied datetime or doctor differs from the stored value, so a
duration-only update can create an overlap without error; whenever the
availability check *does* run and fails — always, for `add_appointment`
past its ID/requirement checks — the call returns the conflict error and
leaves the store unchanged). -/
theorem conflictCheck_failure_rejects_and_preserves_store
    (parse : String → Option Int) (now genId : String) (appts : ApptStore)
    (data : Appt) (appointment_id : String) (appt : Appt) (upd : ApptUpdate) :
    ((lookupA appts (data.id.getD genId) = none → data.patient_id ≠ "" →
      data.datetime ≠ "" →
      checkAppointmentAvailable parse appts data none = false →
      addAppointment parse now genId appts data =
        ⟨appts, false, "Appointment time conflicts with an existing appointment"⟩)) ∧
    (lookupA appts appointment_id = some appt →
      ((upd.datetime.isSome && upd.datetime ≠ some appt.datetime) ||
        (upd.doctor.isSome && upd.doctor ≠ some appt.doctor)) = true →
      checkAppointmentAvailable parse appts (applyApptUpdate appt upd)
        (some appointment_id) = false →
      updateAppointment parse now appts appointment_id upd =
        ⟨appts, false, "Updated appointment time conflicts with an existing appointment"⟩) := by
  constructor
  · intro hfresh hpid hdt hc
    simp [addAppointment, hfresh, hpid, hdt, hc]
  · intro hlk hch hc
    have hcond : (((upd.datetime.isSome && upd.datetime ≠ some appt.datetime) ||
        (upd.doctor.isSome && upd.doctor ≠ some appt.doctor)) &&
        !(checkAppointmentAvailable parse appts (applyApptUpdate appt upd)
          (some appointment_id))) = true := by
      rw [hch, hc]
      rfl
    simp only [updateAppointment, hlk]
    rw [hcond]
    simp

/-- Witness for the amended C2: a conflicting add (Dr. Smith, minute 15
against stored `[0,30)`) and a conflicting datetime update (moving the
minute-40 appointment to minute 15) are both rejected with the conflict
message and leave the store exactly as it was. -/
theorem conflictCheck_failure_rejects_witness :
    addAppointment sampleParse "n" "B" [("A", smithA)]
        { patient_id := "P2", datetime := "t15", doctor := "Smith" } =
      ⟨[("A", smithA)], false,
        "Appointment time conflicts with an existing appointment"⟩ ∧
    updateAppointment sampleParse "n" [("A", smithA), ("B", smithB)] "B"
        { datetime := some "t15" } =
      ⟨[("A", smithA), ("B", smithB)], false,
        "Updated appointment time conflicts with an existing appointment"⟩ :=
  ⟨(conflictCheck_failure_rejects_and_preserves_store sampleParse "n" "B"
      [("A", smithA)] { patient_id := "P2", datetime := "t15", doctor := "Smith" }
      "X" {} {}).1 (by decide) (by decide) (by decide) (by decide),
   (conflictCheck_failure_rejects_and_preserves_store sampleParse "n" "B"
      [("A", smithA), ("B", smithB)] {} "B" smithB { datetime := some "t15" }).2
      (by decide) (by decide) (by decide)⟩

/-- **C10**: `add_appointment` can never succeed when the request's doctor is
empty/missing or its datetime does not parse (the availability check reports
such requests as unavailable, and every failure path leaves `ok = false`);
consequently, if every stored appointment has a non-empty doctor and a
parsable datetime, the same holds after any `add_appointment` call. -/
theorem addAppointment_requires_doctor_and_parsable_datetime
    (parse : String → Option Int) (now genId : String) (appts : ApptStore)
    (data : Appt) :
    ((data.doctor = "" ∨ parse data.datetime = none) →
      (addAppointment parse now genId appts data).ok = false) ∧
    ((∀ pr ∈ appts, pr.2.doctor ≠ "" ∧ (parse pr.2.datetime).isSome = true) →
      ∀ pr ∈ (addAppointment parse now genId appts data).state,
        pr.2.doctor ≠ "" ∧ (parse pr.2.datetime).isSome = true) := by
  rcases addAppointment_cases parse now genId appts data with ⟨heq, hc⟩ | ⟨hst, hok⟩
  · rcases checkAvailable_true_elim parse appts data none hc with ⟨_, hdoc, hsome⟩
    constructor
    · rintro (hbad | hbad)
      · exact absurd hbad hdoc
      · rw [hbad] at hsome
        exact absurd hsome (by simp)
    · intro hinv pr hpr
      rw [heq] at hpr
      rcases mem_insertA appts (data.id.getD genId) (stampNewAppt now data) pr hpr with
        hmem | hmem
      · exact hinv pr hmem
      · rw [hmem]
        exact ⟨hdoc, hsome⟩
  · constructor
    · intro _
      exact hok
    · intro hinv pr hpr
      rw [hst] at hpr
      exact hinv pr hpr

/-- Witness for C10: a doctorless request fails on the empty store, and
adding Dr. Jones at minute 15 to a store whose single appointment has a
non-empty doctor and parsable datetime preserves that property. -/
theorem addAppointment_requires_doctor_witness :
    (addAppointment sampleParse "n" "A" []
        { patient_id := "P1", datetime := "t0" }).ok = false ∧
    (∀ pr ∈ (addAppointment sampleParse "n" "B" [("A", smithA)]
        { patient_id := "P2", datetime := "t15", doctor := "Jones" }).state,
      pr.2.doctor ≠ "" ∧ (sampleParse pr.2.datetime).isSome = true) :=
  ⟨(addAppointment_requires_doctor_and_parsable_datetime sampleParse "n" "A" []
      { patient_id := "P1", datetime := "t0" }).1 (Or.inl (by decide)),
   (addAppointment_requires_doctor_and_parsable_datetime sampleParse "n" "B"
      [("A", smithA)] { patient_id := "P2", datetime := "t15", doctor := "Jones" }).2
      (by decide)⟩

/-! ### Visit lifecycle claims -/

theorem mergeVisitNotes_end_time (now : String) (v : Visit) (vn : Option VisitNotes) :
    (mergeVisitNotes now v vn).end_time = some now := by
  unfold mergeVisitNotes
  cases vn with
  | none => simp [visitNotesTruthy]
  | some n =>
    by_cases h : visitNotesTruthy (some n) = true
    · simp [h]
    · simp [Bool.not_eq_true _ ▸ h]

theorem mergeVisitNotes_status (now : String) (v : Visit) (vn : Option VisitNotes) :
    (mergeVisitNotes now v vn).status = "completed" := by
  unfold mergeVisitNotes
  cases vn with
  | none => simp [visitNotesTruthy]
  | some n =>
    by_cases h : visitNotesTruthy (some n) = true
    · simp [h]
    · simp [Bool.not_eq_true _ ▸ h]

/-- The code's guard for the medical-history append coincides with "a
non-empty diagnosis was supplied". -/
theorem diagnosisSupplied_iff (vn : Option VisitNotes) :
    diagnosisSupplied vn = true ↔
      ∃ n d, vn = some n ∧ n.diagnosis = some d ∧ d ≠ "" := by
  cases vn with
  | none => simp [diagnosisSupplied]
  | some n =>
    cases hd : n.diagnosis with
    | none => simp [diagnosisSupplied, hd]
    | some d => by_cases h : d = "" <;> simp [diagnosisSupplied, hd, h]

/-- Fixture patient and active visit for the witnesses below. -/
def patP1 : Patient := { name := "Alice", created_on := some "c0" }

def visitV1 : Visit := { start_time := "s0", doctor := "Smith", status := "active" }

def pmSt1 : PMState :=
  { patients := [("P0001", patP1)], active_visits := [("P0001", visitV1)] }

def pmSt2 : PMState := { patients := [("P0001", patP1)], active_visits := [] }

/-- **C3**: starting a visit for a patient who already has an active visit
returns `AlreadyActive` and leaves the whole state (hence the original
active visit) unchanged; and every patient-manager operation preserves the
invariant that the active-visits mapping binds each patient at most once. -/
theorem activeVisit_unique_and_alreadyActive
    (now : String) (st : PMState) (patient_id : String) (p : Patient) (v : Visit)
    (vd : Option VisitInit) (vn : Option VisitNotes) (notes : String)
    (pid2 : Option String) (pdata : Patient) (u : PatientUpdate) :
    ((lookupA st.patients patient_id = some p →
      lookupA st.active_visits patient_id = some v →
      startVisit now st patient_id vd =
        ⟨st, false, "Patient already has an active visit"⟩)) ∧
    (keysNodup st.active_visits →
      keysNodup (startVisit now st patient_id vd).state.active_visits ∧
      keysNodup (endVisit now st patient_id vn).state.active_visits ∧
      keysNodup (updateVisitNotes st patient_id notes).state.active_visits ∧
      keysNodup (addPatient now st pid2 pdata).state.active_visits ∧
      keysNodup (updatePatient now st patient_id u).state.active_visits ∧
      keysNodup (deletePatient st patient_id).state.active_visits) := by
  constructor
  · intro hp hv
    simp [startVisit, hp, hv]
  · intro hnd
    refine ⟨?_, ?_, ?_, ?_, ?_, ?_⟩
    · cases hlp : lookupA st.patients patient_id with
      | none => simpa [startVisit, hlp] using hnd
      | some p2 =>
        cases hla : lookupA st.active_visits patient_id with
        | none =>
          simpa [startVisit, hlp, hla] using
            keysNodup_insertA st.active_visits patient_id _ hnd
        | some v2 => simpa [startVisit, hlp, hla] using hnd
    · cases hlp : lookupA st.patients patient_id with
      | none => simpa [endVisit, hlp] using hnd
      | some p2 =>
        cases hla : lookupA st.active_visits patient_id with
        | none => simpa [endVisit, hlp, hla] using hnd
        | some v2 =>
          simpa [endVisit, hlp, hla] using
            keysNodup_eraseA st.active_visits patient_id hnd
    · cases hla : lookupA st.active_visits patient_id with
      | none => simpa [updateVisitNotes, hla] using hnd
      | some v2 =>
        simpa [updateVisitNotes, hla] using
          keysNodup_insertA st.active_visits patient_id _ hnd
    · unfold addPatient
      split_ifs <;> simpa using hnd
    · cases hlp : lookupA st.patients patient_id with
      | none => simpa [updatePatient, hlp] using hnd
      | some p2 => simpa [updatePatient, hlp] using hnd
    · unfold deletePatient
      split_ifs <;> simpa using hnd

/-- Witness for C3: a second `start_visit` for `P0001` returns
`AlreadyActive` without touching the state, and the nodup-keys invariant
survives the operations on the fixture state. -/
theorem activeVisit_unique_witness :
    startVisit "n" pmSt1 "P0001" none =
      ⟨pmSt1, false, "Patient already has an active visit"⟩ ∧
    keysNodup (startVisit "n" pmSt1 "P0001" none).state.active_visits ∧
    keysNodup (endVisit "n" pmSt1 "P0001" none).state.active_visits :=
  ⟨(activeVisit_unique_and_alreadyActive "n" pmSt1 "P0001" patP1 visitV1
      none none "x" none {} {}).1 (by decide) (by decide),
   ((activeVisit_unique_and_alreadyActive "n" pmSt1 "P0001" patP1 visitV1
      none none "x" none {} {}).2 (by decide)).1,
   (((activeVisit_unique_and_alreadyActive "n" pmSt1 "P0001" patP1 visitV1
      none none "x" none {} {}).2 (by decide)).2).1⟩

/-- **C4**: on its error paths (`NotFound` / `NoActiveVisit`) `end_visit`
performs no mutation at all — the state, and so `visit_history`,
`medical_history` and the active-visits mapping, are exactly as before. -/
theorem endVisit_error_paths_no_mutation
    (now : String) (st : PMState) (patient_id : String) (vn : Option VisitNotes) :
    (lookupA st.patients patient_id = none →
      endVisit now st patient_id vn =
        ⟨st, false, s!"Patient ID {patient_id} not found"⟩) ∧
    (lookupA st.active_visits patient_id = none →
      (endVisit now st patient_id vn).state = st ∧
      (endVisit now st patient_id vn).ok = false) := by
  constructor
  · intro h
    simp [endVisit, h]
  · intro h
    cases hlp : lookupA st.patients patient_id with
    | none => simp [endVisit, hlp]
    | some p => simp [endVisit, hlp, h]

/-- Witness for C4: ending a visit for an unknown patient, and for a known
patient with no active visit, both fail and leave the state untouched. -/
theorem endVisit_error_paths_witness :
    endVisit "n" pmSt2 "P9999" none =
      ⟨pmSt2, false, "Patient ID P9999 not found"⟩ ∧
    (endVisit "n" pmSt2 "P0001" none).state = pmSt2 ∧
    (endVisit "n" pmSt2 "P0001" none).ok = false :=
  ⟨(endVisit_error_paths_no_mutation "n" pmSt2 "P9999" none).1 (by decide),
   (endVisit_error_paths_no_mutation "n" pmSt2 "P0001" none).2 (by decide)⟩

/-- **C5**: on success `end_visit` stamps `end_time := now`, sets
`status := "completed"`, merges the optional notes/diagnosis/treatment/
follow_up from the supplied `visit_notes`, appends the finished visit to the
patient's `visit_history`, appends a `"diagnosis"`-typed `medical_history`
entry (carrying the supplied notes and treatment) iff a non-empty diagnosis
was supplied, and removes the patient's active-visit entry (other patients'
active visits untouched). -/
theorem endVisit_success_characterization
    (now : String) (st : PMState) (patient_id : String) (vn : Option VisitNotes)
    (p : Patient) (v : Visit)
    (hp : lookupA st.patients patient_id = some p)
    (hv : lookupA st.active_visits patient_id = some v) :
    (endVisit now st patient_id vn).ok = true ∧
    lookupA (endVisit now st patient_id vn).state.active_visits patient_id = none ∧
    (∀ k, k ≠ patient_id →
      lookupA (endVisit now st patient_id vn).state.active_visits k =
        lookupA st.active_visits k) ∧
    lookupA (endVisit now st patient_id vn).state.patients patient_id =
      some { p with
        visit_history := p.visit_history ++ [mergeVisitNotes now v vn]
        medical_history :=
          if diagnosisSupplied vn then
            p.medical_history ++ [diagnosisEntry now vn]
          else p.medical_history } ∧
    (mergeVisitNotes now v vn).end_time = some now ∧
    (mergeVisitNotes now v vn).status = "completed" ∧
    (diagnosisSupplied vn = true ↔
      ∃ n d, vn = some n ∧ n.diagnosis = some d ∧ d ≠ "") := by
  refine ⟨?_, ?_, ?_, ?_, mergeVisitNotes_end_time now v vn,
    mergeVisitNotes_status now v vn, diagnosisSupplied_iff vn⟩
  · simp [endVisit, hp, hv]
  · simp [endVisit, hp, hv, lookupA_eraseA_self]
  · intro k hk
    simp [endVisit, hp, hv, lookupA_eraseA_ne st.active_visits patient_id k hk]
  · cases hd : diagnosisSupplied vn with
    | true => simp [endVisit, hp, hv, hd, lookupA_insertA_self]
    | false => simp [endVisit, hp, hv, hd, lookupA_insertA_self]

/-- Witness for C5 at a concrete state: ending `P0001`'s visit with a
non-empty diagnosis appends the completed snapshot and a diagnosis entry and
clears the active visit. -/
theorem endVisit_success_witness :
    (endVisit "e1" pmSt1 "P0001"
        (some { diagnosis := some "flu", treatment := some "rest" })).ok = true ∧
    lookupA (endVisit "e1" pmSt1 "P0001"
        (some { diagnosis := some "flu", treatment := some "rest" })).state.active_visits
      "P0001" = none ∧
    lookupA (endVisit "e1" pmSt1 "P0001"
        (some { diagnosis := some "flu", treatment := some "rest" })).state.patients
      "P0001" =
      some { patP1 with
        visit_history := patP1.visit_history ++
          [mergeVisitNotes "e1" visitV1
            (some { diagnosis := some "flu", treatment := some "rest" })]
        medical_history :=
          if diagnosisSupplied (some { diagnosis := some "flu", treatment := some "rest" }) then
            patP1.medical_history ++
              [diagnosisEntry "e1" (some { diagnosis := some "flu", treatment := some "rest" })]
          else patP1.medical_history } := by
  have h := endVisit_success_characterization "e1" pmSt1 "P0001"
    (some { diagnosis := some "flu", treatment := some "rest" }) patP1 visitV1
    (by decide) (by decide)
  exact ⟨h.1, h.2.1, h.2.2.2.1⟩

/-- **C6**: `update_patient` never lets an update payload — even one carrying
`medical_history`, `visit_history` or `created_on` keys — replace those three
fields: after a successful update they are exactly the pre-call values. -/
theorem updatePatient_preserves_history
    (now : String) (st : PMState) (patient_id : String) (u : PatientUpdate)
    (p : Patient) (hp : lookupA st.patients patient_id = some p) :
    ∃ q, lookupA (updatePatient now st patient_id u).state.patients patient_id =
        some q ∧
      q.medical_history = p.medical_history ∧
      q.visit_history = p.visit_history ∧
      q.created_on = p.created_on := by
  simp only [updatePatient, hp]
  exact ⟨_, lookupA_insertA_self _ _ _, rfl, rfl, rfl⟩

/-- Witness for C6: an update that tries to overwrite `medical_history`,
`visit_history` and `created_on` wholesale leaves all three untouched. -/
theorem updatePatient_preserves_history_witness :
    ∃ q, lookupA (updatePatient "n" pmSt1 "P0001"
        { name := some "Bob",
          medical_history := some [{ condition := "forged" }],
          visit_history := some [],
          created_on := some "forged" }).state.patients "P0001" = some q ∧
      q.medical_history = patP1.medical_history ∧
      q.visit_history = patP1.visit_history ∧
      q.created_on = patP1.created_on :=
  updatePatient_preserves_history "n" pmSt1 "P0001"
    { name := some "Bob",
      medical_history := some [{ condition := "forged" }],
      visit_history := some [],
      created_on := some "forged" } patP1 (by decide)

/-! ### Archival claims -/

theorem lookupA_some_mem {V : Type} (m : List (String × V)) (k : String) (v : V)
    (h : lookupA m k = some v) : (k, v) ∈ m := by
  induction m with
  | nil => simp [lookupA] at h
  | cons hd tl ih =>
    obtain ⟨k2, v2⟩ := hd
    by_cases hh : k2 = k
    · subst hh
      have h2 : v2 = v := by simpa [lookupA] using h
      subst h2
      exact List.mem_cons_self _ _
    · simp only [lookupA, if_neg hh] at h
      exact List.mem_cons_of_mem _ (ih h)

theorem lookupA_map {V W : Type} (g : V → W) (m : List (String × V)) (k : String) :
    lookupA (m.map fun pr => (pr.1, g pr.2)) k = (lookupA m k).map g := by
  induction m with
  | nil => simp [lookupA]
  | cons hd tl ih =>
    obtain ⟨k2, v2⟩ := hd
    by_cases hh : k2 = k
    · simp [lookupA, hh]
    · simp [lookupA, hh, ih]

theorem partitionVisits_eq_filter (parse : String → Option Int) (cutoff : Int)
    (l : List Visit) :
    partitionVisits parse cutoff l =
      (l.filter (keepVisit parse cutoff),
        l.filter fun v => !(keepVisit parse cutoff v)) := by
  induction l with
  | nil => simp [partitionVisits]
  | cons v rest ih =>
    by_cases h : keepVisit parse cutoff v = true
    · simp [partitionVisits, h, ih, List.filter_cons]
    · simp only [Bool.not_eq_true] at h
      simp [partitionVisits, h, ih, List.filter_cons]

/-- The rewrite `archive_old_visits` applies to each patient record:
`visit_history` replaced by its "keep" sublist. -/
def keepOnly (parse : String → Option Int) (cutoff : Int) (p : Patient) : Patient :=
  { p with visit_history := p.visit_history.filter (keepVisit parse cutoff) }

theorem archiveLoop_patients (parse : String → Option Int) (cutoff : Int)
    (l : List (String × Patient)) (archived : List (String × List Visit)) :
    (archiveLoop parse cutoff l archived).1 =
      l.map fun pr => (pr.1, keepOnly parse cutoff pr.2) := by
  induction l generalizing archived with
  | nil => simp [archiveLoop]
  | cons hd rest ih =>
    obtain ⟨pid, p⟩ := hd
    simp [archiveLoop, partitionVisits_eq_filter, ih, keepOnly]

theorem archiveLoop_count (parse : String → Option Int) (cutoff : Int)
    (l : List (String × Patient)) (archived : List (String × List Visit)) :
    (archiveLoop parse cutoff l archived).2.2 =
      (l.map fun pr =>
        (pr.2.visit_history.filter fun v => !(keepVisit parse cutoff v)).length).sum := by
  induction l generalizing archived with
  | nil => simp [archiveLoop]
  | cons hd rest ih =>
    obtain ⟨pid, p⟩ := hd
    simp [archiveLoop, partitionVisits_eq_filter, ih, Nat.add_comm]

theorem archiveLoop_archived_not_mem (parse : String → Option Int) (cutoff : Int)
    (l : List (String × Patient)) (archived : List (String × List Visit))
    (k : String) (hk : k ∉ l.map Prod.fst) :
    lookupA (archiveLoop parse cutoff l archived).2.1 k = lookupA archived k := by
  induction l generalizing archived with
  | nil => simp [archiveLoop]
  | cons hd rest ih =>
    obtain ⟨pid, p⟩ := hd
    simp only [List.map_cons, List.mem_cons, not_or] at hk
    have hne : k ≠ pid := hk.1
    unfold archiveLoop
    by_cases he : ((partitionVisits parse cutoff p.visit_history).2).isEmpty = true
    · simpa [he] using ih _ hk.2
    · have := ih (insertA archived pid
        ((lookupA archived pid).getD [] ++ (partitionVisits parse cutoff p.visit_history).2))
        hk.2
      simpa [he, lookupA_insertA_ne archived pid k _ hne] using this

theorem archiveLoop_archived_mem (parse : String → Option Int) (cutoff : Int)
    (l : List (String × Patient)) (archived : List (String × List Visit))
    (pid : String) (p : Patient)
    (hnd : (l.map Prod.fst).Nodup) (hmem : (pid, p) ∈ l) :
    lookupA (archiveLoop parse cutoff l archived).2.1 pid =
      if (p.visit_history.filter fun v => !(keepVisit parse cutoff v)).isEmpty = true
      then lookupA archived pid
      else some ((lookupA archived pid).getD [] ++
        (p.visit_history.filter fun v => !(keepVisit parse cutoff v))) := by
  induction l generalizing archived with
  | nil => simp at hmem
  | cons hd rest ih =>
    obtain ⟨pid2, p2⟩ := hd
    simp only [List.map_cons, List.nodup_cons] at hnd
    rcases List.mem_cons.mp hmem with hh | hh
    · have hpid : pid2 = pid := (Prod.mk.injEq _ _ _ _ ▸ hh.symm).1
      have hp : p2 = p := (Prod.mk.injEq _ _ _ _ ▸ hh.symm).2
      subst hpid
      subst hp
      have hnot : pid2 ∉ rest.map Prod.fst := hnd.1
      unfold archiveLoop
      rw [partitionVisits_eq_filter]
      by_cases he : ((p2.visit_history.filter fun v =>
          !(keepVisit parse cutoff v)).isEmpty) = true
      · simpa [he] using archiveLoop_archived_not_mem parse cutoff rest archived pid2 hnot
      · have := archiveLoop_archived_not_mem parse cutoff rest
          (insertA archived pid2 ((lookupA archived pid2).getD [] ++
            (p2.visit_history.filter fun v => !(keepVisit parse cutoff v)))) pid2 hnot
        simpa [he, lookupA_insertA_self] using this
    · have hpidmem : pid ∈ rest.map Prod.fst :=
        List.mem_map.mpr ⟨(pid, p), hh, rfl⟩
      have hne : pid ≠ pid2 := fun hc => hnd.1 (hc ▸ hpidmem)
      unfold archiveLoop
      by_cases he : ((partitionVisits parse cutoff p2.visit_history).2).isEmpty = true
      · simpa [he] using ih _ hnd.2 hh
      · have := ih (insertA archived pid2 ((lookupA archived pid2).getD [] ++
          (partitionVisits parse cutoff p2.visit_history).2)) hnd.2 hh
        simpa [he, lookupA_insertA_ne archived pid2 pid _ hne] using this

/-- The keep criterion coincides with the claim's words: end_time missing (or
falsy), unparsable, or strictly newer than the cutoff. -/
theorem keepVisit_iff (parse : String → Option Int) (cutoff : Int) (v : Visit) :
    keepVisit parse cutoff v = true ↔
      v.end_time = none ∨ v.end_time = some "" ∨
      (∃ s, v.end_time = some s ∧ parse s = none) ∨
      (∃ s t, v.end_time = some s ∧ parse s = some t ∧ cutoff < t) := by
  cases he : v.end_time with
  | none => simp [keepVisit, he]
  | some s =>
    by_cases hs : s = ""
    · subst hs
      simp [keepVisit, he]
    · cases hp : parse s with
      | none => simp [keepVisit, he, hs, hp]
      | some t =>
        by_cases hlt : cutoff < t <;> simp [keepVisit, he, hs, hp, hlt]

/-- **C7**: `archive_old_visits` keeps, per patient and in order, exactly the
visits whose end_time is missing/falsy, unparsable, or strictly newer than
the cutoff; the rest are appended to the patient's archive bucket (existing
archive contents preserved); the returned count is the total number of
archived visits. -/
theorem archiveOldVisits_characterization (parse : String → Option Int)
    (cutoff : Int) (st : CMState) (hnd : keysNodup st.patients) :
    (∀ pid p, lookupA st.patients pid = some p →
      lookupA (archiveOldVisits parse cutoff st).1.patients pid =
        some { p with
          visit_history := p.visit_history.filter (keepVisit parse cutoff) } ∧
      lookupA (archiveOldVisits parse cutoff st).1.archived_visits pid =
        (if (p.visit_history.filter fun v => !(keepVisit parse cutoff v)).isEmpty = true
         then lookupA st.archived_visits pid
         else some ((lookupA st.archived_visits pid).getD [] ++
           (p.visit_history.filter fun v => !(keepVisit parse cutoff v))))) ∧
    (archiveOldVisits parse cutoff st).2 =
      (st.patients.map fun pr =>
        (pr.2.visit_history.filter fun v => !(keepVisit parse cutoff v)).length).sum ∧
    (∀ v, keepVisit parse cutoff v = true ↔
      v.end_time = none ∨ v.end_time = some "" ∨
      (∃ s, v.end_time = some s ∧ parse s = none) ∨
      (∃ s t, v.end_time = some s ∧ parse s = some t ∧ cutoff < t)) := by
  refine ⟨?_, ?_, keepVisit_iff parse cutoff⟩
  · intro pid p hp
    constructor
    · show lookupA (archiveLoop parse cutoff st.patients st.archived_visits).1 pid = _
      rw [archiveLoop_patients]
      rw [lookupA_map (keepOnly parse cutoff) st.patients pid]
      rw [hp]
      rfl
    · exact archiveLoop_archived_mem parse cutoff st.patients st.archived_visits pid p
        hnd (lookupA_some_mem st.patients pid p hp)
  · exact archiveLoop_count parse cutoff st.patients st.archived_visits

/-- Fixture parse/cutoff realising the spec scenario: with "now" at minute
200000 and a 90-day cutoff (129600 minutes), `"end100"` (100 days ago,
minute 56000) is older than the cutoff 70400 and `"end10"` (10 days ago,
minute 185600) is newer. -/
def archParse : String → Option Int := fun s =>
  if s = "end100" then some 56000
  else if s = "end10" then some 185600
  else none

def visit100 : Visit :=
  { start_time := "s1", end_time := some "end100", status := "completed" }

def visit10 : Visit :=
  { start_time := "s2", end_time := some "end10", status := "completed" }

def patArch : Patient := { name := "Ann", visit_history := [visit100, visit10] }

def cmSt1 : CMState := { patients := [("P1", patArch)], archived_visits := [] }

/-- Witness for C7, the spec scenario: a 90-day sweep archives exactly the
100-day-old visit and keeps the 10-day-old one. -/
theorem archiveOldVisits_characterization_witness :
    lookupA (archiveOldVisits archParse 70400 cmSt1).1.patients "P1" =
      some { patArch with visit_history := [visit10] } ∧
    lookupA (archiveOldVisits archParse 70400 cmSt1).1.archived_visits "P1" =
      some [visit100] ∧
    (archiveOldVisits archParse 70400 cmSt1).2 = 1 := by
  have h := archiveOldVisits_characterization archParse 70400 cmSt1 (by decide)
  have h1 := h.1 "P1" patArch (by decide)
  refine ⟨?_, ?_, ?_⟩
  · rw [h1.1]
    decide
  · rw [h1.2]
    decide
  · rw [h.2.1]
    decide

theorem filter_not_filter {α : Type} (f : α → Bool) (l : List α) :
    (l.filter f).filter (fun a => !(f a)) = [] := by
  rw [List.filter_eq_nil_iff]
  intro a ha
  have := (List.mem_filter.mp ha).2
  simp [this]

theorem archiveLoop_no_old (parse : String → Option Int) (cutoff : Int)
    (l : List (String × Patient)) (archived : List (String × List Visit))
    (h : ∀ pr ∈ l, pr.2.visit_history.filter (fun v => !(keepVisit parse cutoff v)) = []) :
    archiveLoop parse cutoff l archived = (l, archived, 0) := by
  induction l generalizing archived with
  | nil => simp [archiveLoop]
  | cons hd rest ih =>
    obtain ⟨pid, p⟩ := hd
    have hh := h (pid, p) (List.mem_cons_self _ _)
    simp only at hh
    have hkeep : p.visit_history.filter (keepVisit parse cutoff) = p.visit_history := by
      rw [List.filter_eq_self]
      intro v hv
      by_contra hcon
      have hmem : v ∈ p.visit_history.filter (fun v => !(keepVisit parse cutoff v)) :=
        List.mem_filter.mpr ⟨hv, by simp [Bool.not_eq_true _ ▸ hcon]⟩
      rw [hh] at hmem
      exact absurd hmem (List.not_mem_nil v)
    have hrest := ih archived ?_
    · unfold archiveLoop
      rw [partitionVisits_eq_filter]
      simp [hh, hkeep, hrest]
    · intro pr hpr
      exact h pr (List.mem_cons_of_mem _ hpr)

/-- **C8**: archiving is idempotent — with the same parse and cutoff, a
second `archive_old_visits` run on the result of a first archives zero
visits and changes neither any patient's `visit_history` nor the archive
buckets. -/
theorem archiveOldVisits_idempotent (parse : String → Option Int) (cutoff : Int)
    (st : CMState) :
    archiveOldVisits parse cutoff (archiveOldVisits parse cutoff st).1 =
      ((archiveOldVisits parse cutoff st).1, 0) := by
  have hno : ∀ pr ∈ (archiveOldVisits parse cutoff st).1.patients,
      pr.2.visit_history.filter (fun v => !(keepVisit parse cutoff v)) = [] := by
    intro pr hpr
    have heq0 : (archiveOldVisits parse cutoff st).1.patients =
        (archiveLoop parse cutoff st.patients st.archived_visits).1 := rfl
    rw [heq0, archiveLoop_patients] at hpr
    rcases List.mem_map.mp hpr with ⟨pr0, _, heq⟩
    rw [← heq]
    exact filter_not_filter (keepVisit parse cutoff) pr0.2.visit_history
  have hdef : archiveOldVisits parse cutoff (archiveOldVisits parse cutoff st).1 =
      (⟨(archiveLoop parse cutoff (archiveOldVisits parse cutoff st).1.patients
          (archiveOldVisits parse cutoff st).1.archived_visits).1,
        (archiveLoop parse cutoff (archiveOldVisits parse cutoff st).1.patients
          (archiveOldVisits parse cutoff st).1.archived_visits).2.1⟩,
        (archiveLoop parse cutoff (archiveOldVisits parse cutoff st).1.patients
          (archiveOldVisits parse cutoff st).1.archived_visits).2.2) := rfl
  rw [hdef, archiveLoop_no_old parse cutoff _ _ hno]

/-! ### Test-result trending claims -/

theorem insertLe_perm {α : Type} (le : α → α → Bool) (x : α) (l : List α) :
    List.Perm (insertLe le x l) (x :: l) := by
  induction l with
  | nil => exact List.Perm.refl _
  | cons y ys ih =>
    by_cases h : le x y = true
    · rw [insertLe, if_pos h]
    · rw [insertLe, if_neg h]
      exact (ih.cons y).trans (List.Perm.swap x y ys)

theorem sortLe_perm {α : Type} (le : α → α → Bool) (l : List α) :
    List.Perm (sortLe le l) l := by
  induction l with
  | nil => exact List.Perm.refl _
  | cons x xs ih => exact (insertLe_perm le x (sortLe le xs)).trans (ih.cons x)

theorem mem_insertLe {α : Type} (le : α → α → Bool) (x : α) (l : List α) (b : α)
    (h : b ∈ insertLe le x l) : b = x ∨ b ∈ l :=
  List.mem_cons.mp ((insertLe_perm le x l).mem_iff.mp h)

theorem pairwise_insertLe {α : Type} (le : α → α → Bool)
    (htot : ∀ a b, le a b = false → le b a = true)
    (htrans : ∀ a b c, le a b = true → le b c = true → le a c = true)
    (x : α) (l : List α) (h : l.Pairwise fun a b => le a b = true) :
    (insertLe le x l).Pairwise fun a b => le a b = true := by
  induction l with
  | nil => simp [insertLe]
  | cons y ys ih =>
    rcases List.pairwise_cons.mp h with ⟨hy, hys⟩
    by_cases hxy : le x y = true
    · rw [insertLe, if_pos hxy]
      refine List.pairwise_cons.mpr ⟨?_, h⟩
      intro b hb
      rcases List.mem_cons.mp hb with rfl | hb
      · exact hxy
      · exact htrans x y b hxy (hy b hb)
    · rw [insertLe, if_neg hxy]
      refine List.pairwise_cons.mpr ⟨?_, ih hys⟩
      intro b hb
      rcases mem_insertLe le x ys b hb with hbx | hb
      · rw [hbx]
        exact htot x y (by simpa using hxy)
      · exact hy b hb

theorem pairwise_sortLe {α : Type} (le : α → α → Bool)
    (htot : ∀ a b, le a b = false → le b a = true)
    (htrans : ∀ a b c, le a b = true → le b c = true → le a c = true)
    (l : List α) :
    (sortLe le l).Pairwise fun a b => le a b = true := by
  induction l with
  | nil => simp [sortLe]
  | cons x xs ih => exact pairwise_insertLe le htot htrans x (sortLe le xs) ih

/-- Built from the claim's words: the trend points of the patient's raw
stored results of the given type that survive the numeric/date extraction,
in storage order. -/
def numericalSpec (parseFloat : String → Option ℚ) (parseDate : String → Option Int)
    (store : TRStore) (patient_id test_type : String) : List TrendPoint :=
  ((lookupA store patient_id).getD []).filterMap fun pr =>
    if pr.2.test_name = test_type then
      numericPoint parseFloat parseDate { pr.2 with id := pr.1 }
    else none

/-- The extraction step, characterised in the claim's words: a result
contributes a point iff its value is present and parses as a float and its
test_date is non-empty and parses as a date, and the point carries the
parsed value and date. -/
theorem numericPoint_eq_some_iff (parseFloat : String → Option ℚ)
    (parseDate : String → Option Int) (r : TestResult) (pt : TrendPoint) :
    numericPoint parseFloat parseDate r = some pt ↔
      ∃ s x d, r.value = some s ∧ parseFloat s = some x ∧ r.test_date ≠ "" ∧
        parseDate r.test_date = some d ∧
        pt = ⟨d, x, r.unit, r.reference_range, r.id⟩ := by
  unfold numericPoint
  cases hv : r.value with
  | none => simp
  | some s =>
    cases hx : parseFloat s with
    | none => simp [hx]
    | some x =>
      by_cases hd : r.test_date = ""
      · simp [hx, hd]
      · cases hpd : parseDate r.test_date with
        | none => simp [hx, hd, hpd]
        | some d =>
          simp only [hx, hpd, if_neg hd, Option.some.injEq]
          constructor
          · intro he
            exact ⟨s, x, d, rfl, hx, hd, rfl, he.symm⟩
          · rintro ⟨s2, x2, d2, hs2, hx2, _, hd2, hpt⟩
            subst hs2
            subst hd2
            rw [hx] at hx2
            injection hx2 with hxx
            subst hxx
            exact hpt.symm

/-- **C9**: `get_numerical_test_results` returns exactly (as a multiset) the
points extracted from the patient's stored results of the given type —
those whose value parses as a float and whose test_date parses — paired
with the parsed value and date, and the output is sorted ascending by date;
non-numeric values and unparsable dates are silently excluded. -/
theorem getNumericalTestResults_spec (parseFloat : String → Option ℚ)
    (parseDate : String → Option Int) (store : TRStore)
    (patient_id test_type : String) :
    List.Perm (getNumericalTestResults parseFloat parseDate store patient_id test_type)
      (numericalSpec parseFloat parseDate store patient_id test_type) ∧
    (getNumericalTestResults parseFloat parseDate store patient_id test_type).Pairwise
      (fun a b => a.date ≤ b.date) ∧
    (∀ r pt, numericPoint parseFloat parseDate r = some pt ↔
      ∃ s x d, r.value = some s ∧ parseFloat s = some x ∧ r.test_date ≠ "" ∧
        parseDate r.test_date = some d ∧
        pt = ⟨d, x, r.unit, r.reference_range, r.id⟩) := by
  refine ⟨?_, ?_, fun r pt => numericPoint_eq_some_iff parseFloat parseDate r pt⟩
  · show List.Perm (sortLe _ ((getTestResultsByType store patient_id test_type).filterMap
      (numericPoint parseFloat parseDate))) _
    refine (sortLe_perm _ _).trans ?_
    unfold getTestResultsByType getPatientTestResults
    refine (List.Perm.filterMap _ (List.Perm.filter _ (sortLe_perm _ _))).trans ?_
    rw [List.filterMap_filter, List.filterMap_map]
    unfold numericalSpec
    refine List.Perm.of_eq (List.filterMap_congr ?_)
    intro pr hpr
    by_cases h : pr.2.test_name = test_type
    · simp [Function.comp, h]
    · simp [Function.comp, h]
  · show ((sortLe (fun a b : TrendPoint => a.date ≤ b.date)
      ((getTestResultsByType store patient_id test_type).filterMap
        (numericPoint parseFloat parseDate)))).Pairwise (fun a b => a.date ≤ b.date)
    have h := pairwise_sortLe (fun a b : TrendPoint => a.date ≤ b.date)
      (fun a b hab => by
        simp only [decide_eq_false_iff_not, not_le, decide_eq_true_eq] at *
        omega)
      (fun a b c hab hbc => by
        simp only [decide_eq_true_eq] at *
        omega)
      ((getTestResultsByType store patient_id test_type).filterMap
        (numericPoint parseFloat parseDate))
    exact h.imp fun hab => by simpa using hab

/-- Fixture for the C9 scenario: result `"142"` (numeric) and `"pending"`
(non-numeric) of the same test type. -/
def trFix : TRStore :=
  [("P1", [("r1", { test_name := "glucose", test_date := "d1", value := some "142" }),
           ("r2", { test_name := "glucose", test_date := "d2", value := some "pending" })])]

def floatFix : String → Option ℚ := fun s => if s = "142" then some 142 else none

def dateFix : String → Option Int := fun s =>
  if s = "d1" then some 1 else if s = "d2" then some 2 else none

/-- Witness/scenario for C9: the `"142"` result is included (with its parsed
value and date), the `"pending"` one excluded, and the output agrees with the
claim-side extraction as stated by the theorem. -/
theorem getNumericalTestResults_spec_witness :
    getNumericalTestResults floatFix dateFix trFix "P1" "glucose" =
      [{ date := 1, value := 142, unit := "", reference_range := "", id := "r1" }] ∧
    List.Perm (getNumericalTestResults floatFix dateFix trFix "P1" "glucose")
      (numericalSpec floatFix dateFix trFix "P1" "glucose") :=
  ⟨by decide, (getNumericalTestResults_spec floatFix dateFix trFix "P1" "glucose").1⟩

end Clinic
